import Mathlib

/-!
Verification development for the dynamic QR code manager.

The repository ships several server variants sharing one core:
* `server.js` / the in-memory variants: global `qrCodes` array, `nanoid(8)`
  identifiers, `generateVCard`, landing-page resolver;
* the hardened Supabase variant (`validateUrl`, `validateVCardData` with a
  100-character cap, 302-redirect resolver, `qr_codes` table);
* an earlier hardened in-memory variant (same validators but without the
  length cap, landing-page resolver);
* a Netlify serverless resolver.

This file shallowly embeds the validation, rendering, routing and store
operations of those variants and proves the specification claims about them.
JavaScript strings are modelled as Lean `String`/`List Char`; the behaviour of
the `validator` npm package (`isURL`, `escape`) is embedded from its source,
specialised to the option sets the repository passes.
-/

deriving instance DecidableEq for Except

/-- JavaScript whitespace (the class matched by `\s` and removed by
`String.prototype.trim`). -/
def isJsWhitespace (c : Char) : Bool :=
  c = ' ' || c.toNat = 9 || c.toNat = 10 || c.toNat = 11 || c.toNat = 12 ||
  c.toNat = 13 || c.toNat = 0xA0 || c.toNat = 0x1680 ||
  (decide (0x2000 ≤ c.toNat) && decide (c.toNat ≤ 0x200A)) ||
  c.toNat = 0x2028 || c.toNat = 0x2029 || c.toNat = 0x202F ||
  c.toNat = 0x205F || c.toNat = 0x3000 || c.toNat = 0xFEFF

/-- `str.trim()` on the character list: drop JS whitespace from both ends. -/
def trimList (l : List Char) : List Char :=
  ((l.dropWhile isJsWhitespace).reverse.dropWhile isJsWhitespace).reverse

/-- JavaScript `String.prototype.trim`. -/
def jsTrim (s : String) : String := ⟨trimList s.data⟩

/-- ASCII lower-casing of one character (`String.prototype.toLowerCase` on the
code points the repository's URLs use). -/
def asciiLower (c : Char) : Char :=
  if decide ('A' ≤ c) && decide (c ≤ 'Z') then Char.ofNat (c.toNat + 32) else c

def lowerList (l : List Char) : List Char := l.map asciiLower

def lowerStr (s : String) : String := ⟨lowerList s.data⟩

/-- Split at the first occurrence of `sep` (JS
`url.split(sep)` followed by `shift()`/`join(sep)`): returns the part before
the first occurrence and the raw remainder after it. -/
def splitFirst (sep : List Char) : List Char → Option (List Char × List Char)
  | [] => none
  | c :: cs =>
    if sep.isPrefixOf (c :: cs) then some ([], (c :: cs).drop sep.length)
    else
      match splitFirst sep cs with
      | some (a, b) => some (c :: a, b)
      | none => none

/-- Whether `sub` occurs as a contiguous substring. -/
def containsSub (sub l : List Char) : Bool := (splitFirst sub l).isSome

/-- `url.split(c)[0]`: everything before the first occurrence of `c` (the whole
list when `c` is absent). -/
def dropAfterChar (c : Char) (l : List Char) : List Char :=
  l.takeWhile (fun x => decide (x ≠ c))

/-- JavaScript `String.prototype.split` on a single character: keeps empty
parts, `"".split(c) = [""]`. -/
def splitOnChar (c : Char) : List Char → List (List Char)
  | [] => [[]]
  | x :: xs =>
    let r := splitOnChar c xs
    if x = c then [] :: r
    else
      match r with
      | h :: t => (x :: h) :: t
      | [] => [[x]]

/-- Digit string to number, for `parseInt(port_str, 10)` on all-digit input. -/
def digitsToNat (l : List Char) : Nat :=
  l.foldl (fun n c => n * 10 + (c.toNat - 48)) 0

/-! ## The `validator` npm package, specialised to the repository's options

`isURL` is embedded from `validator/lib/isURL.js` with the options the
repository passes: `protocols: ['http','https']`, `require_protocol`,
`require_valid_protocol`, `allow_underscores: false`,
`allow_trailing_dot: false`, `allow_protocol_relative_urls: false`, and the
defaults `require_host`, `validate_length`, fragments and query components
allowed. -/

/-- One IPv4 dotted-quad segment:
`25[0-5]|2[0-4][0-9]|1[0-9][0-9]|[1-9][0-9]|[0-9]`. -/
def isIPv4Seg (l : List Char) : Bool :=
  match l with
  | [a] => a.isDigit
  | [a, b] => decide ('1' ≤ a) && decide (a ≤ '9') && b.isDigit
  | [a, b, c] =>
    (a = '1' && b.isDigit && c.isDigit) ||
    (a = '2' && decide ('0' ≤ b) && decide (b ≤ '4') && c.isDigit) ||
    (a = '2' && b = '5' && decide ('0' ≤ c) && decide (c ≤ '5'))
  | _ => false

/-- `validator.isIP(str, 4)`. -/
def isIPv4 (l : List Char) : Bool :=
  let parts := splitOnChar '.' l
  decide (parts.length = 4) && parts.all isIPv4Seg

def isHexDigit (c : Char) : Bool :=
  c.isDigit || (decide ('a' ≤ asciiLower c) && decide (asciiLower c ≤ 'f'))

/-- An IPv6 hextet: 1–4 hex digits. -/
def isIPv6Group (g : List Char) : Bool :=
  decide (1 ≤ g.length) && decide (g.length ≤ 4) && g.all isHexDigit

/-- A zone-id character, `[0-9a-zA-Z.]`. -/
def isZoneChar (c : Char) : Bool := c.isDigit || c.isAlpha || c = '.'

/-- The uncompressed/compressed alternations of `validator.isIP(str, 6)`
without the zone suffix: either 8 hextets, 6 hextets and a trailing IPv4, or a
single `::` compression with the group count bounded by 7 (an embedded IPv4
counting for two groups). -/
def isIPv6Main (main : List Char) : Bool :=
  match splitFirst [':', ':'] main with
  | none =>
    let gs := splitOnChar ':' main
    (decide (gs.length = 8) && gs.all isIPv6Group) ||
    (decide (gs.length = 7) && gs.dropLast.all isIPv6Group && isIPv4 (gs.getLastD []))
  | some (left, right) =>
    let lgs := if left.isEmpty then [] else splitOnChar ':' left
    let rgs := if right.isEmpty then [] else splitOnChar ':' right
    if !lgs.all isIPv6Group then false
    else
      match rgs.reverse with
      | [] => decide (lgs.length ≤ 7)
      | lastG :: revInit =>
        if !(revInit.reverse.all isIPv6Group) then false
        else if isIPv6Group lastG then decide (lgs.length + rgs.length ≤ 7)
        else if isIPv4 lastG then decide (lgs.length + (rgs.length - 1) + 2 ≤ 7)
        else false

/-- `validator.isIP(str, 6)`: main address plus optional `%zone`. -/
def isIPv6 (l : List Char) : Bool :=
  match splitFirst ['%'] l with
  | none => isIPv6Main l
  | some (m, z) => (!z.isEmpty && z.all isZoneChar) && isIPv6Main m

/-- A letter allowed in the TLD class `[a-z¡-￿]` (case-insensitive). -/
def isTldLetter (c : Char) : Bool :=
  (decide ('a' ≤ asciiLower c) && decide (asciiLower c ≤ 'z')) ||
  (decide (0xA1 ≤ c.toNat) && decide (c.toNat ≤ 0xFFFF))

/-- The TLD test `/^([a-z¡-￿]{2,}|xn[a-z0-9-]{2,})$/i`. -/
def isTldOk (tld : List Char) : Bool :=
  (decide (2 ≤ tld.length) && tld.all isTldLetter) ||
  (match tld with
   | x :: n :: rest =>
     asciiLower x = 'x' && asciiLower n = 'n' && decide (2 ≤ rest.length) &&
     rest.all (fun c =>
       c.isDigit || (decide ('a' ≤ asciiLower c) && decide (asciiLower c ≤ 'z')) || c = '-')
   | _ => false)

/-- A character of the label class `[a-z_¡-￿0-9-]` (case-insens.). -/
def isDomainChar (c : Char) : Bool :=
  (decide ('a' ≤ asciiLower c) && decide (asciiLower c ≤ 'z')) || c.isDigit ||
  c = '_' || c = '-' ||
  (decide (0xA1 ≤ c.toNat) && decide (c.toNat ≤ 0xFFFF))

/-- Full-width characters `[！-～]`, rejected in every label. -/
def isFullWidth (c : Char) : Bool :=
  decide (0xFF01 ≤ c.toNat) && decide (c.toNat ≤ 0xFF5E)

/-- One domain label check of `isFQDN` (length cap, character class, no
full-width characters, no leading/trailing hyphen, and — since the repository
passes `allow_underscores: false` — no underscore). -/
def fqdnPartOk (p : List Char) : Bool :=
  decide (p.length ≤ 63) &&
  (!p.isEmpty && p.all isDomainChar) &&
  !(p.any isFullWidth) &&
  decide (p.headD 'a' ≠ '-') && decide (p.getLastD 'a' ≠ '-') &&
  !(p.contains '_')

/-- `validator.isFQDN` with the repository's options (`require_tld`,
no trailing dot, no wildcard, no numeric TLD, no underscores). -/
def isFQDN (l : List Char) : Bool :=
  let parts := splitOnChar '.' l
  let tld := parts.getLastD []
  if parts.length < 2 then false
  else if !isTldOk tld then false
  else if tld.any isJsWhitespace then false
  else if !tld.isEmpty && tld.all Char.isDigit then false
  else parts.all fqdnPartOk

/-- The `url.split('@')` handling of `isURL`: reject an empty auth section,
two or more colons in it, or `":"` (empty user and password); otherwise the
hostname is everything after the first `'@'`. -/
def checkAuth (hp : List Char) : Option (List Char) :=
  match splitFirst ['@'] hp with
  | none => some hp
  | some (auth, rest) =>
    if auth.isEmpty then none
    else if decide (2 ≤ (auth.filter (fun c => c = ':')).length) then none
    else if auth = [':'] then none
    else some rest

/-- The wrapped-IPv6 match `/^\[([^\]]+)\](?::([0-9]+))?$/` on the hostname. -/
def parseWrappedIpv6 (l : List Char) : Option (List Char × Option (List Char)) :=
  match l with
  | '[' :: rest =>
    let inner := rest.takeWhile (fun c => decide (c ≠ ']'))
    match rest.dropWhile (fun c => decide (c ≠ ']')) with
    | ']' :: tail =>
      if inner.isEmpty then none
      else
        match tail with
        | [] => some (inner, none)
        | ':' :: ds =>
          if !ds.isEmpty && ds.all Char.isDigit then some (inner, some ds) else none
        | _ => none
    | _ => none
  | _ => none

/-- The port check of `isURL`: a present, non-empty port string must be all
digits with value in `1..65535`; `require_port` is off. -/
def portOk (p : Option (List Char)) : Bool :=
  match p with
  | none => true
  | some ds =>
    if ds.isEmpty then true
    else
      ds.all Char.isDigit && decide (1 ≤ digitsToNat ds) &&
      decide (digitsToNat ds ≤ 65535)

/-- Host/port section of `isURL`: auth handling, then either a wrapped IPv6
literal or a `host[:port]` whose host is an IP or an FQDN. -/
def checkHostPort (hp : List Char) : Bool :=
  match checkAuth hp with
  | none => false
  | some hostname =>
    match parseWrappedIpv6 hostname with
    | some (ip6, portDs) => portOk portDs && isIPv6 ip6
    | none =>
      let host := hostname.takeWhile (fun c => decide (c ≠ ':'))
      let portDs :=
        match splitFirst [':'] hostname with
        | none => none
        | some (_, rest) => some rest
      portOk portDs && (isIPv4 host || isIPv6 host || isFQDN host)

/-- After the protocol is stripped: `isURL` rejects an empty remainder, takes
the section before the first `'/'` and checks host and port. -/
def isURLTail (rest : List Char) : Bool :=
  if rest.isEmpty then false
  else checkHostPort (rest.takeWhile (fun c => decide (c ≠ '/')))

/-- `validator.isURL` with the repository's options: non-empty, no whitespace
or angle brackets, no `mailto:` prefix, length below 2083; fragment and query
stripped; a protocol is required and must lower-case to `http` or `https`;
then host and port are validated. -/
def isURL (s : String) : Bool :=
  if s.data.isEmpty then false
  else if s.data.any (fun c => isJsWhitespace c || c = '<' || c = '>') then false
  else if "mailto:".data.isPrefixOf s.data then false
  else if decide (2083 ≤ s.data.length) then false
  else
    match splitFirst "://".data (dropAfterChar '?' (dropAfterChar '#' s.data)) with
    | none => false
    | some (proto, rest) =>
      if !(lowerList proto = "http".data || lowerList proto = "https".data) then false
      else isURLTail rest

/-- The scheme of a URL string, extracted the way `isURL` does: strip fragment
and query, then lower-case whatever precedes the first `://`. -/
def urlScheme (u : String) : Option String :=
  match splitFirst "://".data (dropAfterChar '?' (dropAfterChar '#' u.data)) with
  | none => none
  | some (proto, _) => some ⟨lowerList proto⟩

/-- `new URL(url).hostname` for the already-accepted http/https URLs: the
authority is what lies between `://` and the first `/`, `?` or `#`; user
information up to the last `'@'` is dropped; a bracketed IPv6 literal keeps its
brackets, otherwise the host stops at the port colon; the result is
lower-cased. (IDNA/punycode mapping is not modelled; the validator's FQDN
check has already restricted the host alphabet.) -/
def urlHostname (u : String) : String :=
  match splitFirst "://".data u.data with
  | none => ""
  | some (_, rest) =>
    let auth := rest.takeWhile (fun c => decide (¬(c = '/' ∨ c = '?' ∨ c = '#')))
    let hostport := (auth.reverse.takeWhile (fun c => decide (c ≠ '@'))).reverse
    let host :=
      match hostport with
      | '[' :: r =>
        '[' :: (r.takeWhile (fun c => decide (c ≠ ']')) ++
          (if r.contains ']' then [']'] else []))
      | _ => hostport.takeWhile (fun c => decide (c ≠ ':'))
    ⟨lowerList host⟩

/-! ## The repository's `validateUrl` (hardened Supabase variant) -/

/-- `NODE_ENV`: the hardened variant applies extra hostname checks in
production. -/
inductive Mode where
  | development
  | production
deriving DecidableEq

/-- The deny-list `dangerousPatterns` of the hardened variant. -/
def dangerousSchemes : List String :=
  ["javascript:", "data:", "vbscript:", "file:", "ftp:", "mailto:", "tel:",
   "sms:", "chrome:", "chrome-extension:", "moz-extension:", "about:",
   "blob:", "ws:", "wss:", "gopher:", "ldap:", "ldaps:"]

/-- The deny-list of the earlier in-memory variant (stops at `blob:`). -/
def dangerousSchemesV1 : List String :=
  ["javascript:", "data:", "vbscript:", "file:", "ftp:", "mailto:", "tel:",
   "sms:", "chrome:", "chrome-extension:", "moz-extension:", "about:", "blob:"]

/-- `pattern.test(url.trim())` for the anchored case-insensitive scheme
patterns. -/
def matchesDangerousIn (pats : List String) (u : String) : Bool :=
  pats.any (fun p => p.data.isPrefixOf (lowerList (trimList u.data)))

def matchesDangerous (u : String) : Bool := matchesDangerousIn dangerousSchemes u

/-- `String.prototype.startsWith`, computed on the character list. -/
def strStarts (s p : String) : Bool := p.data.isPrefixOf s.data

/-- `String.prototype.includes` for a single character. -/
def strHasChar (s : String) (c : Char) : Bool := s.data.contains c

/-- Hardened `validateUrl` on a present string: deny-list, `isURL`, hostname
checks (loopback/private only in production, suspicious patterns always),
returning the trimmed URL. -/
def validateUrlStr (mode : Mode) (u : String) : Except String String :=
  if matchesDangerous u then .error "Dangerous URL scheme not allowed"
  else if !isURL u then
    .error "Invalid URL format - only HTTP and HTTPS URLs are allowed"
  else if mode = Mode.production ∧
      (urlHostname u = "localhost" ∨ strStarts (urlHostname u) "127." = true ∨
       strStarts (urlHostname u) "192.168." = true ∨
       strStarts (urlHostname u) "10." = true ∨
       strStarts (urlHostname u) "172." = true ∨ urlHostname u = "0.0.0.0") then
    .error "Local/private URLs are not allowed in production"
  else if containsSub "..".data (urlHostname u).data = true ∨
      strHasChar (urlHostname u) '@' = true ∨
      strHasChar (urlHostname u) '#' = true then
    .error "Suspicious URL patterns detected"
  else .ok (jsTrim u)

/-- `validateUrl(url)` of the hardened Supabase variant, including the
`!url || typeof url !== 'string'` guard (absent and empty values rejected). -/
def validateUrl (mode : Mode) (url : Option String) : Except String String :=
  match url with
  | none => .error "URL is required and must be a string"
  | some u =>
    if u = "" then .error "URL is required and must be a string"
    else validateUrlStr mode u

/-- `validateUrl` of the earlier in-memory variant: shorter deny-list, same
`isURL` options, loopback/private hosts always rejected, no suspicious-pattern
check. -/
def validateUrlV1 (url : Option String) : Except String String :=
  match url with
  | none => .error "URL is required and must be a string"
  | some u =>
    if u = "" then .error "URL is required and must be a string"
    else if matchesDangerousIn dangerousSchemesV1 u then
      .error "Dangerous URL scheme not allowed"
    else if !isURL u then
      .error "Invalid URL format - only HTTP and HTTPS URLs are allowed"
    else if urlHostname u = "localhost" ∨ strStarts (urlHostname u) "127." = true ∨
        strStarts (urlHostname u) "192.168." = true ∨
        strStarts (urlHostname u) "10." = true ∨
        strStarts (urlHostname u) "172." = true then
      .error "Local/private URLs are not allowed"
    else .ok (jsTrim u)

/-! ## `validator.escape` -/

/-- `str.replace(/c/g, r)` for a single-character pattern. -/
def replaceAllChar (c : Char) (r : List Char) : List Char → List Char
  | [] => []
  | x :: xs => (if x = c then r else [x]) ++ replaceAllChar c r xs

/-- `validator.escape`: the chained global replaces, in the library's order
`& " ' < > / \ `` `. -/
def escapeList (l : List Char) : List Char :=
  replaceAllChar (Char.ofNat 96) "&#96;".data
    (replaceAllChar (Char.ofNat 92) "&#x5C;".data
      (replaceAllChar '/' "&#x2F;".data
        (replaceAllChar '>' "&gt;".data
          (replaceAllChar '<' "&lt;".data
            (replaceAllChar (Char.ofNat 39) "&#x27;".data
              (replaceAllChar '"' "&quot;".data
                (replaceAllChar '&' "&amp;".data l)))))))

def escapeStr (s : String) : String := ⟨escapeList s.data⟩

/-- The per-character translation `validator.escape` amounts to (each later
replacement string contains no character consumed by a later pass). -/
def escChar (c : Char) : List Char :=
  if c = '&' then "&amp;".data
  else if c = '"' then "&quot;".data
  else if c = Char.ofNat 39 then "&#x27;".data
  else if c = '<' then "&lt;".data
  else if c = '>' then "&gt;".data
  else if c = '/' then "&#x2F;".data
  else if c = Char.ofNat 92 then "&#x5C;".data
  else if c = Char.ofNat 96 then "&#96;".data
  else [c]

/-- Does the list begin with one of the entity strings `escape` emits? -/
def startsEntity (l : List Char) : Bool :=
  ["&amp;".data, "&quot;".data, "&#x27;".data, "&lt;".data, "&gt;".data,
   "&#x2F;".data, "&#x5C;".data, "&#96;".data].any (fun e => e.isPrefixOf l)

/-- Every `'&'` in the list starts one of the escape entities. -/
def ampOk : List Char → Bool
  | [] => true
  | c :: rest => (decide (c ≠ '&') || startsEntity (c :: rest)) && ampOk rest

/-- "No unescaped `<`, `>`, `&`, `"`, `'`": none of the four bracket/quote
characters occur at all, and every ampersand starts an emitted entity. -/
def noUnescaped (s : String) : Bool :=
  s.data.all (fun c =>
    decide (c ≠ '<') && decide (c ≠ '>') && decide (c ≠ '"') &&
    decide (c ≠ Char.ofNat 39)) &&
  ampOk s.data

/-! ## Contact-card payloads and `validateVCardData` -/

/-- The JSON `data` object of a record: the link URL plus the seven allowed
contact fields. A missing property is `none`; JavaScript treats the empty
string as falsy, so "present" below always means `truthyStr`. -/
structure JsonData where
  url : Option String := none
  firstName : Option String := none
  lastName : Option String := none
  email : Option String := none
  phone : Option String := none
  organization : Option String := none
  title : Option String := none
  website : Option String := none
deriving DecidableEq

/-- JavaScript truthiness of an optional string property. -/
def truthyStr : Option String → Bool
  | none => false
  | some s => decide (s ≠ "")

/-- The seven `allowed` contact fields, in the source's iteration order. -/
inductive VField where
  | firstName | lastName | email | phone | organization | title | website
deriving DecidableEq

def JsonData.getF (d : JsonData) : VField → Option String
  | .firstName => d.firstName
  | .lastName => d.lastName
  | .email => d.email
  | .phone => d.phone
  | .organization => d.organization
  | .title => d.title
  | .website => d.website

/-- The external `validator` predicates the contact validator consults; their
behaviour is irrelevant to the claims proved here, so they are kept
abstract. -/
structure ExtChecks where
  isEmail : String → Bool
  isMobilePhone : String → Bool

/-- External checks that accept everything (used to instantiate witnesses on
inputs that never reach them). -/
def extTrue : ExtChecks := ⟨fun _ => true, fun _ => true⟩

/-- One pass of the hardened sanitize loop: a truthy field is trimmed,
HTML-escaped and rejected when longer than 100 characters. -/
def sanitizeField (v : Option String) (name : String) : Except String (Option String) :=
  match v with
  | none => .ok none
  | some s =>
    if s = "" then .ok none
    else
      let t := escapeStr (jsTrim s)
      if 100 < t.length then .error (name ++ " is too long (max 100 characters)")
      else .ok (some t)

/-- `validateVCardData` of the hardened Supabase variant: required
first/last name, optional email/phone/website checks, then the sanitize loop
with the 100-character cap. The output object has only the recognized fields
(`url` is dropped). -/
def validateVCardData (ext : ExtChecks) (mode : Mode) (d : JsonData) :
    Except String JsonData :=
  if !truthyStr d.firstName || jsTrim (d.firstName.getD "") = "" then
    .error "firstName is required"
  else if !truthyStr d.lastName || jsTrim (d.lastName.getD "") = "" then
    .error "lastName is required"
  else if truthyStr d.email && !ext.isEmail (d.email.getD "") then
    .error "Invalid email format"
  else if truthyStr d.phone && !ext.isMobilePhone (d.phone.getD "") then
    .error "Invalid phone format"
  else if truthyStr d.website &&
      !(validateUrl mode d.website matches .ok _) then
    .error "Invalid website URL"
  else do
    let f ← sanitizeField d.firstName "firstName"
    let l ← sanitizeField d.lastName "lastName"
    let e ← sanitizeField d.email "email"
    let p ← sanitizeField d.phone "phone"
    let o ← sanitizeField d.organization "organization"
    let t ← sanitizeField d.title "title"
    let w ← sanitizeField d.website "website"
    return { url := none, firstName := f, lastName := l, email := e, phone := p,
             organization := o, title := t, website := w }

/-- The sanitize loop of the earlier in-memory variant: escape and trim, but
no length cap. -/
def sanitizeFieldV1 (v : Option String) : Option String :=
  match v with
  | none => none
  | some s => if s = "" then none else some (escapeStr (jsTrim s))

/-- `validateVCardData` of the earlier in-memory variant: required
first/last name, optional email and website checks (no phone check), then the
uncapped sanitize loop. -/
def validateVCardDataV1 (ext : ExtChecks) (d : JsonData) :
    Except String JsonData :=
  if !truthyStr d.firstName || jsTrim (d.firstName.getD "") = "" then
    .error "firstName is required"
  else if !truthyStr d.lastName || jsTrim (d.lastName.getD "") = "" then
    .error "lastName is required"
  else if truthyStr d.email && !ext.isEmail (d.email.getD "") then
    .error "Invalid email format"
  else if truthyStr d.website &&
      !(validateUrlV1 d.website matches .ok _) then
    .error "Invalid website URL"
  else
    .ok { url := none,
          firstName := sanitizeFieldV1 d.firstName,
          lastName := sanitizeFieldV1 d.lastName,
          email := sanitizeFieldV1 d.email,
          phone := sanitizeFieldV1 d.phone,
          organization := sanitizeFieldV1 d.organization,
          title := sanitizeFieldV1 d.title,
          website := sanitizeFieldV1 d.website }

/-! ## Records, HTTP responses and the Supabase variant's handlers -/

/-- A row of the Supabase `qr_codes` table: integer primary key, unique
`short_id`, a `type` tag, the JSON `data` object, and the two timestamps
(modelled as abstract instants). -/
structure SupaRecord where
  id : Nat
  short_id : String
  type : String
  data : JsonData
  created_at : Nat
  updated_at : Nat
deriving DecidableEq

/-- The responses the handlers can produce. `Express res.redirect(url)`
defaults to status 302. -/
inductive HttpResponse where
  | redirect (status : Nat) (location : String)
  | htmlPage (status : Nat) (body : String)
  | vcardFile (filename : String) (body : String)
  | jsonMsg (status : Nat) (msg : String)
deriving DecidableEq

/-- The type/payload validation block of the hardened variant's
`POST /api/qr` handler: for a link the URL is required and validated (the
validator's return value is discarded, the original `data` object is kept);
for a vcard the sanitized object replaces the request data. -/
def supaValidateCreate (ext : ExtChecks) (mode : Mode) (ty : String)
    (d : JsonData) : Except String JsonData :=
  if ty = "link" then
    match d.url with
    | none => .error "URL is required for link type"
    | some u =>
      if u = "" then .error "URL is required for link type"
      else
        match validateUrl mode (some u) with
        | .error e => .error e
        | .ok _ => .ok d
  else if ty = "vcard" then validateVCardData ext mode d
  else .ok d

/-- The identical validation block of the hardened variant's
`PUT /api/qr/:id` handler. -/
def supaValidateUpdate (ext : ExtChecks) (mode : Mode) (ty : String)
    (d : JsonData) : Except String JsonData :=
  if ty = "link" then
    match d.url with
    | none => .error "URL is required for link type"
    | some u =>
      if u = "" then .error "URL is required for link type"
      else
        match validateUrl mode (some u) with
        | .error e => .error e
        | .ok _ => .ok d
  else if ty = "vcard" then validateVCardData ext mode d
  else .ok d

/-- Result of a create request: the table afterwards, the response, and how
many identifiers were drawn from the generator (`nanoid(8)` call count). -/
structure CreateOutcome where
  newStore : List SupaRecord
  response : HttpResponse
  draws : Nat
deriving DecidableEq

/-- `POST /api/qr` of the hardened Supabase variant. The `validateQRCode`
middleware rejects a type outside `{link, vcard}` before any work; then the
payload is validated; then exactly one `nanoid(8)` is drawn and one insert is
attempted. A violation of the `short_id` uniqueness constraint makes the
insert fail, which the handler reports as a generic 500 — there is no retry. -/
def supaCreate (ext : ExtChecks) (mode : Mode) (store : List SupaRecord)
    (nextId : Nat) (genId : String) (now : Nat) (ty : String) (d : JsonData) :
    CreateOutcome :=
  if !(ty = "link" || ty = "vcard") then
    ⟨store, .jsonMsg 400 "Validation failed", 0⟩
  else
    match supaValidateCreate ext mode ty d with
    | .error e => ⟨store, .jsonMsg 400 e, 0⟩
    | .ok stored =>
      if store.any (fun r => r.short_id = genId) then
        ⟨store, .jsonMsg 500 "Failed to create QR code", 1⟩
      else
        ⟨store ++ [⟨nextId, genId, ty, stored, now, now⟩],
         .jsonMsg 200 "created", 1⟩

/-- `PUT /api/qr/:id` of the hardened Supabase variant: validate, then
`update({type, data, updated_at}) .eq('id', id)`: only those three columns are
written on the matching row. -/
def supaUpdate (ext : ExtChecks) (mode : Mode) (store : List SupaRecord)
    (id : Nat) (now : Nat) (ty : String) (d : JsonData) :
    List SupaRecord × HttpResponse :=
  if !(ty = "link" || ty = "vcard") then
    (store, .jsonMsg 400 "Validation failed")
  else
    match supaValidateUpdate ext mode ty d with
    | .error e => (store, .jsonMsg 400 e)
    | .ok stored =>
      if store.any (fun r => r.id = id) then
        (store.map (fun r =>
           if r.id = id then
             { r with type := ty, data := stored, updated_at := now }
           else r),
         .jsonMsg 200 "updated")
      else (store, .jsonMsg 500 "Failed to update QR code")

/-- The inline vCard template literal of the Supabase variant's resolver:
plain `\n` line breaks, with each of the five optional interpolations sitting
on its own (possibly empty) line. -/
def supaVCardText (d : JsonData) : String :=
  let f := d.firstName.getD "undefined"
  let l := d.lastName.getD "undefined"
  "BEGIN:VCARD\n" ++ "VERSION:3.0\n" ++
  "FN:" ++ f ++ " " ++ l ++ "\n" ++
  "N:" ++ l ++ ";" ++ f ++ ";;;\n" ++
  (if truthyStr d.email then "EMAIL:" ++ d.email.getD "" else "") ++ "\n" ++
  (if truthyStr d.phone then "TEL:" ++ d.phone.getD "" else "") ++ "\n" ++
  (if truthyStr d.organization then "ORG:" ++ d.organization.getD "" else "") ++ "\n" ++
  (if truthyStr d.title then "TITLE:" ++ d.title.getD "" else "") ++ "\n" ++
  (if truthyStr d.website then "URL:" ++ d.website.getD "" else "") ++ "\n" ++
  "END:VCARD"

/-- `GET /q/:shortId` of the hardened Supabase variant. A missing row renders
the 404 page; `type === 'link'` issues `res.redirect` (302) to the stored URL;
`type === 'vcard'` sends the inline vCard; any other type falls off the end of
the `if`/`else if` chain and the handler sends no response (`none`). -/
def supaResolve (store : List SupaRecord) (shortId : String) :
    Option HttpResponse :=
  match store.find? (fun r => r.short_id = shortId) with
  | none => some (.htmlPage 404 "QR Code Not Found")
  | some r =>
    if r.type = "link" then
      some (.redirect 302 (r.data.url.getD "undefined"))
    else if r.type = "vcard" then
      some (.vcardFile
        ((r.data.firstName.getD "undefined") ++ "-" ++
         (r.data.lastName.getD "undefined") ++ ".vcf")
        (supaVCardText r.data))
    else none

/-- The decimal value of an all-digit string, `none` otherwise (the integer
cast PostgREST applies to the `id` filter value). -/
def decDigits? (l : List Char) : Option Nat :=
  if !l.isEmpty && l.all Char.isDigit then some (digitsToNat l) else none

/-- `DELETE /api/qr/:id` of the Supabase variants:
`.delete().eq('id', req.params.id)` against the integer primary key. A
non-numeric path parameter cannot equal any integer id (PostgREST rejects the
cast and the handler answers 500); either way no row is removed unless the
parameter is the decimal representation of an existing id. -/
def supaDeleteById (store : List SupaRecord) (idStr : String) :
    List SupaRecord × HttpResponse :=
  match decDigits? idStr.data with
  | none => (store, .jsonMsg 500 "Failed to delete QR code")
  | some n => (store.filter (fun r => !(r.id = n)), .jsonMsg 200 "success")

/-- `DELETE /api/qr/clear-all` of the Supabase variants:
`.delete().neq('id', 0)` — removes every row (ids are never 0). -/
def supaClearAll (store : List SupaRecord) : List SupaRecord × HttpResponse :=
  (store.filter (fun r => r.id = 0), .jsonMsg 200 "All QR codes cleared successfully")

/-- `GET /api/qr` (list): the rows currently in the table. -/
def supaList (store : List SupaRecord) : List SupaRecord := store

/-! ## Express routing of the two DELETE endpoints

Every variant registers `DELETE /api/qr/:id` before
`DELETE /api/qr/clear-all`; Express dispatches to the first registered route
whose pattern matches the path, and `:id` matches any single non-empty
segment. -/

/-- Which handler a `DELETE /api/qr/...` request reaches. -/
inductive DeleteRoute where
  | byId (id : String)
  | clearAll
  | noMatch
deriving DecidableEq

/-- First-match dispatch over the registration order of the source:
`/api/qr/:id` first (line 1201), `/api/qr/clear-all` second (line 1221). -/
def dispatchDelete (path : List String) : DeleteRoute :=
  match path with
  | ["api", "qr", seg] =>
    if seg ≠ "" then .byId seg
    else if path = ["api", "qr", "clear-all"] then .clearAll
    else .noMatch
  | _ => .noMatch

/-! ## The in-memory variant (`server.js`) -/

/-- An element of the global `qrCodes` array. -/
structure MemRecord where
  id : Nat
  shortId : String
  type : String
  data : JsonData
  createdAt : Nat
  updatedAt : Nat
deriving DecidableEq

/-- `POST /api/qr` of `server.js`: no validation of any kind; the new record
takes `id = nextId++`, the freshly drawn `shortId`, and the request body
verbatim, and is pushed onto the array unconditionally. -/
def memCreate (store : List MemRecord) (nextId : Nat) (genId : String)
    (now : Nat) (ty : String) (d : JsonData) : List MemRecord × Nat :=
  (store ++ [⟨nextId, genId, ty, d, now, now⟩], nextId + 1)

/-- `PUT /api/qr/:id` of `server.js`: `findIndex` on the id, 404 when absent,
otherwise the element is replaced by `{...old, type, data, updatedAt}` (spread
keeps `id`, `shortId`, `createdAt`). Returns the array and whether the update
succeeded. -/
def memUpdate (store : List MemRecord) (id : Nat) (ty : String) (d : JsonData)
    (now : Nat) : List MemRecord × Bool :=
  match store with
  | [] => ([], false)
  | c :: cs =>
    if c.id = id then
      ({ c with type := ty, data := d, updatedAt := now } :: cs, true)
    else
      let r := memUpdate cs id ty d now
      (c :: r.1, r.2)

/-- `DELETE /api/qr/:id` of `server.js`: `findIndex` then `splice(i, 1)`. -/
def memDelete (store : List MemRecord) (id : Nat) : List MemRecord × Bool :=
  match store with
  | [] => ([], false)
  | c :: cs =>
    if c.id = id then (cs, true)
    else
      let r := memDelete cs id
      (c :: r.1, r.2)

/-- `generateVCard` shared by `server.js`, the SQLite and the in-memory
variants: a line array built up with conditional pushes, joined with CRLF. -/
def generateVCardLines (d : JsonData) : List String :=
  let f := d.firstName.getD "undefined"
  let l := d.lastName.getD "undefined"
  let lines := ["BEGIN:VCARD", "VERSION:3.0", "FN:" ++ f ++ " " ++ l,
                "N:" ++ l ++ ";" ++ f ++ ";;;"]
  let lines := if truthyStr d.email then lines ++ ["EMAIL:" ++ d.email.getD ""] else lines
  let lines := if truthyStr d.phone then lines ++ ["TEL:" ++ d.phone.getD ""] else lines
  let lines := if truthyStr d.organization then lines ++ ["ORG:" ++ d.organization.getD ""] else lines
  let lines := if truthyStr d.title then lines ++ ["TITLE:" ++ d.title.getD ""] else lines
  let lines := if truthyStr d.website then lines ++ ["URL:" ++ d.website.getD ""] else lines
  lines ++ ["END:VCARD"]

def generateVCard (d : JsonData) : String :=
  String.intercalate "\r\n" (generateVCardLines d)

/-- The `server.js` link landing page, condensed to its load-bearing parts:
a 200 HTML document that interpolates the stored URL into the manual link and
the scripted redirect (static CSS and copy elided). -/
def serverLandingHtml (url : String) : String :=
  "<!DOCTYPE html><html lang=\"en\"><head><title>Welcome!</title></head>" ++
  "<body><a href=\"" ++ url ++ "\" id=\"manualLink\">Click here if not redirected</a>" ++
  "<script>window.location.href = '" ++ url ++ "';</script></body></html>"

/-- The `server.js` vcard landing page, condensed the same way: it links to
`/download/<shortId>` rather than serving the bytes. -/
def serverVcardLandingHtml (shortId : String) : String :=
  "<!DOCTYPE html><html lang=\"en\"><head><title>Contact Card</title></head>" ++
  "<body><a href=\"/download/" ++ shortId ++ "\" id=\"manualLink\">Click here to download contact card</a></body></html>"

/-- `handleQRRedirect` of `server.js` (mounted at `GET /q/:shortId`): 404 when
the shortId is unknown; a `link` record answers 200 with the landing page (not
a redirect); a `vcard` record answers 200 with the download landing page; any
other type falls off the `if`/`else if` chain with no response. -/
def serverResolve (store : List MemRecord) (shortId : String) :
    Option HttpResponse :=
  match store.find? (fun c => c.shortId = shortId) with
  | none => some (.htmlPage 404 "QR code not found")
  | some code =>
    if code.type = "link" then
      some (.htmlPage 200 (serverLandingHtml (code.data.url.getD "undefined")))
    else if code.type = "vcard" then
      some (.htmlPage 200 (serverVcardLandingHtml shortId))
    else none

/-- `GET /download/:shortId` of `server.js`: 404 unless the record exists and
is a vcard; otherwise the `generateVCard` bytes as an attachment. -/
def serverDownload (store : List MemRecord) (shortId : String) : HttpResponse :=
  match store.find? (fun c => c.shortId = shortId) with
  | none => .htmlPage 404 "Contact card not found"
  | some code =>
    if code.type = "vcard" then
      .vcardFile ((code.data.firstName.getD "undefined") ++ "_" ++
                  (code.data.lastName.getD "undefined") ++ ".vcf")
        (generateVCard code.data)
    else .htmlPage 404 "Contact card not found"

/-! ## The Netlify serverless resolver -/

/-- A Netlify function response. -/
structure NetlifyResponse where
  statusCode : Nat
  body : String
  location : Option String := none
deriving DecidableEq

/-- The Netlify resolver handler: GET only; looks up `pathSegments[1]`;
a `link` returns a literal 302 with a `Location` header, a `vcard` returns the
`generateVCard` text, and any other stored type reaches the trailing
`return { statusCode: 404, body: 'Invalid QR code type' }`. -/
def netlifyHandler (store : List MemRecord) (httpMethod : String)
    (pathSegments : List String) : NetlifyResponse :=
  if httpMethod ≠ "GET" then ⟨405, "Method not allowed", none⟩
  else
    let shortId := (pathSegments.drop 1).headD ""
    match store.find? (fun c => c.shortId = shortId) with
    | none => ⟨404, "QR code not found", none⟩
    | some code =>
      if code.type = "link" then ⟨302, "", some (code.data.url.getD "undefined")⟩
      else if code.type = "vcard" then ⟨200, generateVCard code.data, none⟩
      else ⟨404, "Invalid QR code type", none⟩

/-! ## Spec-side rendering (for the refinement statement of claim C4) -/

/-- The vCard line sequence as the specification's fixed-order block states
it: `BEGIN`, `VERSION`, `FN`, `N`, then each optional line only when its field
is present, then `END`. -/
def vcardSpecLines (d : JsonData) : List String :=
  let f := d.firstName.getD "undefined"
  let l := d.lastName.getD "undefined"
  ["BEGIN:VCARD", "VERSION:3.0", "FN:" ++ f ++ " " ++ l,
   "N:" ++ l ++ ";" ++ f ++ ";;;"] ++
  (if truthyStr d.email then ["EMAIL:" ++ d.email.getD ""] else []) ++
  (if truthyStr d.phone then ["TEL:" ++ d.phone.getD ""] else []) ++
  (if truthyStr d.organization then ["ORG:" ++ d.organization.getD ""] else []) ++
  (if truthyStr d.title then ["TITLE:" ++ d.title.getD ""] else []) ++
  (if truthyStr d.website then ["URL:" ++ d.website.getD ""] else []) ++
  ["END:VCARD"]

/-! ## Concrete fixtures used by counterexamples and witnesses -/

/-- A link payload for `https://example.com`. -/
def linkExampleData : JsonData := { url := some "https://example.com" }

/-- A contact payload with only the required names. -/
def janeDoeData : JsonData := { firstName := some "Jane", lastName := some "Doe" }

/-- A stored record whose `short_id` is `"AAAAAAAA"`. -/
def recA : SupaRecord :=
  ⟨1, "AAAAAAAA", "link", linkExampleData, 0, 0⟩

/-- 101 copies of `'a'` — trimmed and escaped it is unchanged and one past
the 100-character cap. -/
def longA : String := ⟨List.replicate 101 'a'⟩

/-- `Option HttpResponse` is a 302 redirect. -/
def isRedirect302 : Option HttpResponse → Bool
  | some (.redirect 302 _) => true
  | _ => false

/-! # Helper lemmas -/

theorem dropWhile_all_false {α} (p : α → Bool) :
    ∀ l : List α, (∀ c ∈ l, p c = false) → l.dropWhile p = l
  | [], _ => rfl
  | x :: xs, h => by
    have hx : p x = false := h x (by simp)
    simp [List.dropWhile, hx]

theorem trimList_eq_self (l : List Char)
    (h : ∀ c ∈ l, isJsWhitespace c = false) : trimList l = l := by
  unfold trimList
  rw [dropWhile_all_false _ l h]
  rw [dropWhile_all_false _ l.reverse (fun c hc => h c (List.mem_reverse.mp hc))]
  exact l.reverse_reverse

theorem jsTrim_eq_self (s : String)
    (h : ∀ c ∈ s.data, isJsWhitespace c = false) : jsTrim s = s := by
  unfold jsTrim
  rw [trimList_eq_self s.data h]

theorem isURL_no_ws (u : String) (h : isURL u = true) :
    ∀ c ∈ u.data, isJsWhitespace c = false := by
  intro c hc
  by_cases hws : u.data.any (fun x => isJsWhitespace x || x = '<' || x = '>') = true
  · exfalso
    unfold isURL at h
    simp [hws] at h
  · have hnc : ¬(isJsWhitespace c || c = '<' || c = '>') = true := by
      intro hcontra
      exact hws (List.any_eq_true.mpr ⟨c, hc, hcontra⟩)
    simp at hnc
    exact hnc.1.1

theorem isURL_jsTrim (u : String) (h : isURL u = true) : jsTrim u = u :=
  jsTrim_eq_self u (isURL_no_ws u h)

theorem isURL_scheme (u : String) (h : isURL u = true) :
    urlScheme u = some "http" ∨ urlScheme u = some "https" := by
  unfold urlScheme
  cases hsp : splitFirst "://".data (dropAfterChar '?' (dropAfterChar '#' u.data)) with
  | none =>
    exfalso
    unfold isURL at h
    rw [hsp] at h
    simp at h
  | some pr =>
    obtain ⟨proto, rest⟩ := pr
    by_cases h5 : lowerList proto = "http".data
    · left
      simp [h5]
    · by_cases h6 : lowerList proto = "https".data
      · right
        simp [h6]
      · exfalso
        unfold isURL at h
        rw [hsp] at h
        simp [h5, h6] at h

theorem validateUrl_ok_inv (mode : Mode) (o : Option String) (v : String)
    (h : validateUrl mode o = .ok v) :
    ∃ u, o = some u ∧ u ≠ "" ∧ isURL u = true ∧ v = jsTrim u := by
  cases o with
  | none => simp [validateUrl] at h
  | some u =>
    simp only [validateUrl, validateUrlStr] at h
    split_ifs at h with h1 h2 h3 h4 h5
    refine ⟨u, rfl, h1, ?_, ?_⟩
    · simpa using h3
    · injection h with h'
      exact h'.symm

/-! # Claims -/

/-- C1: every URL accepted by `validateUrl` has scheme exactly `http` or
`https`; every input whose leading scheme matches a deny-listed pattern is
rejected with the `InvalidInput` error `"Dangerous URL scheme not allowed"`;
in particular `javascript:alert(1)` is always rejected. -/
theorem claim_C1 :
    (∀ (mode : Mode) (u v : String), validateUrl mode (some u) = .ok v →
        urlScheme u = some "http" ∨ urlScheme u = some "https") ∧
    (∀ (mode : Mode) (u : String), matchesDangerous u = true →
        validateUrl mode (some u) = .error "Dangerous URL scheme not allowed") ∧
    (∀ mode : Mode, validateUrl mode (some "javascript:alert(1)") =
        .error "Dangerous URL scheme not allowed") := by
  refine ⟨?_, ?_, ?_⟩
  · intro mode u v h
    obtain ⟨u', hu', _, hurl, _⟩ := validateUrl_ok_inv mode (some u) v h
    obtain rfl : u = u' := by injection hu'
    exact isURL_scheme u hurl
  · intro mode u hd
    have hne : u ≠ "" := by
      intro he
      rw [he] at hd
      exact absurd hd (by decide)
    simp [validateUrl, validateUrlStr, hne, hd]
  · intro mode
    cases mode <;> decide

/-- Witness for C1: the accepted `https://example.com` indeed has an
`https` scheme, and the concrete dangerous input is rejected. -/
theorem claim_C1_witness :
    (urlScheme "https://example.com" = some "http" ∨
     urlScheme "https://example.com" = some "https") ∧
    validateUrl .development (some "javascript:alert(1)") =
      .error "Dangerous URL scheme not allowed" :=
  ⟨claim_C1.1 .development "https://example.com" "https://example.com" (by decide),
   claim_C1.2.1 .development "javascript:alert(1)" (by decide)⟩

theorem replaceAllChar_append (c : Char) (r : List Char) (a b : List Char) :
    replaceAllChar c r (a ++ b) = replaceAllChar c r a ++ replaceAllChar c r b := by
  induction a with
  | nil => rfl
  | cons x xs ih => simp [replaceAllChar, ih]

theorem escapeList_append (a b : List Char) :
    escapeList (a ++ b) = escapeList a ++ escapeList b := by
  simp [escapeList, replaceAllChar_append]

theorem escapeList_singleton (x : Char) : escapeList [x] = escChar x := by
  by_cases c1 : x = '&'
  · subst c1; decide
  by_cases c2 : x = '"'
  · subst c2; decide
  by_cases c3 : x = Char.ofNat 39
  · subst c3; decide
  by_cases c4 : x = '<'
  · subst c4; decide
  by_cases c5 : x = '>'
  · subst c5; decide
  by_cases c6 : x = '/'
  · subst c6; decide
  by_cases c7 : x = Char.ofNat 92
  · subst c7; decide
  by_cases c8 : x = Char.ofNat 96
  · subst c8; decide
  simp [escapeList, replaceAllChar, escChar, c1, c2, c3, c4, c5, c6, c7, c8]

theorem escapeList_cons (x : Char) (xs : List Char) :
    escapeList (x :: xs) = escChar x ++ escapeList xs := by
  have : escapeList ([x] ++ xs) = escapeList [x] ++ escapeList xs :=
    escapeList_append [x] xs
  simpa [escapeList_singleton] using this

theorem escChar_no_bad (x c : Char) (h : c ∈ escChar x) :
    c ≠ '<' ∧ c ≠ '>' ∧ c ≠ '"' ∧ c ≠ Char.ofNat 39 := by
  unfold escChar at h
  split_ifs at h with h1 h2 h3 h4 h5 h6 h7 h8
  · fin_cases h <;> decide
  · fin_cases h <;> decide
  · fin_cases h <;> decide
  · fin_cases h <;> decide
  · fin_cases h <;> decide
  · fin_cases h <;> decide
  · fin_cases h <;> decide
  · fin_cases h <;> decide
  · have : c = x := by simpa using h
    subst this
    exact ⟨h4, h5, h2, h3⟩

theorem escapeList_no_bad (l : List Char) :
    ∀ c ∈ escapeList l, c ≠ '<' ∧ c ≠ '>' ∧ c ≠ '"' ∧ c ≠ Char.ofNat 39 := by
  induction l with
  | nil => intro c hc; simp [escapeList, replaceAllChar] at hc
  | cons x xs ih =>
    intro c hc
    rw [escapeList_cons] at hc
    rcases List.mem_append.mp hc with hcx | hcs
    · exact escChar_no_bad x c hcx
    · exact ih c hcs

theorem ampOk_escChar_append (x : Char) (t : List Char) (ht : ampOk t = true) :
    ampOk (escChar x ++ t) = true := by
  unfold escChar
  split_ifs with h1 h2 h3 h4 h5 h6 h7 h8
  · have he : "&amp;".data = ['&', 'a', 'm', 'p', ';'] := rfl
    rw [he]
    simp [ampOk, startsEntity, ht, List.isPrefixOf]
  · have he : "&quot;".data = ['&', 'q', 'u', 'o', 't', ';'] := rfl
    rw [he]
    simp [ampOk, startsEntity, ht, List.isPrefixOf]
  · have he : "&#x27;".data = ['&', '#', 'x', '2', '7', ';'] := rfl
    rw [he]
    simp [ampOk, startsEntity, ht, List.isPrefixOf]
  · have he : "&lt;".data = ['&', 'l', 't', ';'] := rfl
    rw [he]
    simp [ampOk, startsEntity, ht, List.isPrefixOf]
  · have he : "&gt;".data = ['&', 'g', 't', ';'] := rfl
    rw [he]
    simp [ampOk, startsEntity, ht, List.isPrefixOf]
  · have he : "&#x2F;".data = ['&', '#', 'x', '2', 'F', ';'] := rfl
    rw [he]
    simp [ampOk, startsEntity, ht, List.isPrefixOf]
  · have he : "&#x5C;".data = ['&', '#', 'x', '5', 'C', ';'] := rfl
    rw [he]
    simp [ampOk, startsEntity, ht, List.isPrefixOf]
  · have he : "&#96;".data = ['&', '#', '9', '6', ';'] := rfl
    rw [he]
    simp [ampOk, startsEntity, ht, List.isPrefixOf]
  · have hx : x ≠ '&' := h1
    simp [List.singleton_append, ampOk, ht, hx]

theorem ampOk_escapeList (l : List Char) : ampOk (escapeList l) = true := by
  induction l with
  | nil => rfl
  | cons x xs ih =>
    rw [escapeList_cons]
    exact ampOk_escChar_append x (escapeList xs) ih

/-- Every output of `validator.escape` satisfies `noUnescaped`. -/
theorem noUnescaped_escapeStr (s : String) : noUnescaped (escapeStr s) = true := by
  unfold noUnescaped escapeStr
  refine Bool.and_eq_true_iff.mpr ⟨?_, ampOk_escapeList s.data⟩
  rw [List.all_eq_true]
  intro c hc
  obtain ⟨a, b, cc, d⟩ := escapeList_no_bad s.data c hc
  simp [a, b, cc, d]

theorem except_bind_ok {α β : Type} (x : Except String α) (f : α → Except String β)
    (b : β) : (x >>= f) = .ok b ↔ ∃ a, x = .ok a ∧ f a = .ok b := by
  cases x <;> simp [Bind.bind, Except.bind]

theorem sanitizeField_ok_some (v : Option String) (name w : String)
    (h : sanitizeField v name = .ok (some w)) :
    ∃ s, v = some s ∧ s ≠ "" ∧ w = escapeStr (jsTrim s) ∧ w.length ≤ 100 := by
  unfold sanitizeField at h
  cases v with
  | none => simp at h
  | some s =>
    simp only [] at h
    split_ifs at h with h1 h2
    · simp at h
    · have h'' : escapeStr (jsTrim s) = w := by
        injection h with h'
        injection h' with h''
      refine ⟨s, rfl, h1, h''.symm, ?_⟩
      rw [← h'']
      omega

/-- The string name the sanitize loop uses for each field. -/
def fieldName : VField → String
  | .firstName => "firstName"
  | .lastName => "lastName"
  | .email => "email"
  | .phone => "phone"
  | .organization => "organization"
  | .title => "title"
  | .website => "website"

/-- Inversion of the hardened `validateVCardData`: on success, every output
field is exactly the result of the capped sanitize pass on the corresponding
input field. -/
theorem validateVCardData_ok_inv (ext : ExtChecks) (mode : Mode) (d : JsonData)
    (out : JsonData) (h : validateVCardData ext mode d = .ok out) :
    ∀ f : VField, sanitizeField (d.getF f) (fieldName f) = .ok (out.getF f) := by
  unfold validateVCardData at h
  split_ifs at h with h1 h2 h3 h4 h5
  rw [except_bind_ok] at h
  obtain ⟨a1, e1, h⟩ := h
  rw [except_bind_ok] at h
  obtain ⟨a2, e2, h⟩ := h
  rw [except_bind_ok] at h
  obtain ⟨a3, e3, h⟩ := h
  rw [except_bind_ok] at h
  obtain ⟨a4, e4, h⟩ := h
  rw [except_bind_ok] at h
  obtain ⟨a5, e5, h⟩ := h
  rw [except_bind_ok] at h
  obtain ⟨a6, e6, h⟩ := h
  rw [except_bind_ok] at h
  obtain ⟨a7, e7, h⟩ := h
  simp only [pure, Except.pure, Except.ok.injEq] at h
  subst h
  intro f
  cases f <;> simpa [JsonData.getF, fieldName] using
    (by assumption : _ = Except.ok _)

theorem sanitizeField_long_err (s name : String) (hs : s ≠ "")
    (hlen : 100 < (escapeStr (jsTrim s)).length) :
    sanitizeField (some s) name = .error (name ++ " is too long (max 100 characters)") := by
  unfold sanitizeField
  simp [hs, hlen]

set_option maxRecDepth 4000 in
/-- C2 counterexample: the earlier variant's `validateVCardData` (cited by the
claim) has no length cap — a 101-character first name is accepted unchanged,
so an accepted payload can carry a field longer than 100 characters, and the
over-cap field does not cause a failure. -/
theorem claim_C2_cex :
    validateVCardDataV1 extTrue { firstName := some longA, lastName := some "Doe" } =
      .ok { firstName := some longA, lastName := some "Doe" } ∧
    longA.length = 101 ∧ ¬ longA.length ≤ 100 := by
  refine ⟨?_, by decide, by decide⟩
  decide

theorem sanitizeFieldV1_some (o : Option String) (v : String)
    (h : sanitizeFieldV1 o = some v) : ∃ s, v = escapeStr (jsTrim s) := by
  cases o with
  | none => simp [sanitizeFieldV1] at h
  | some s =>
    simp only [sanitizeFieldV1] at h
    split_ifs at h with h1
    exact ⟨s, by injection h with h2; exact h2.symm⟩

/-- C2 (amended): in the hardened variant every accepted contact payload's
field is at most 100 characters and free of unescaped `<`, `>`, `&`, `"`,
`'`, and an over-cap field always fails validation; the earlier variant (also
cited by the claim) escapes every field the same way but imposes no length
cap. -/
theorem claim_C2 :
    (∀ (ext : ExtChecks) (mode : Mode) (d out : JsonData),
       validateVCardData ext mode d = .ok out →
       ∀ (f : VField) (v : String), out.getF f = some v →
         v.length ≤ 100 ∧ noUnescaped v = true) ∧
    (∀ (ext : ExtChecks) (mode : Mode) (d : JsonData) (f : VField) (s : String),
       d.getF f = some s → s ≠ "" → 100 < (escapeStr (jsTrim s)).length →
       ∀ out, validateVCardData ext mode d ≠ .ok out) ∧
    (∀ (ext : ExtChecks) (d out : JsonData),
       validateVCardDataV1 ext d = .ok out →
       ∀ (f : VField) (v : String), out.getF f = some v →
         noUnescaped v = true) := by
  refine ⟨?_, ?_, ?_⟩
  · intro ext mode d out h f v hv
    have hinv := validateVCardData_ok_inv ext mode d out h f
    rw [hv] at hinv
    obtain ⟨s, _, _, hval, hlen⟩ := sanitizeField_ok_some _ _ _ hinv
    exact ⟨hlen, hval ▸ noUnescaped_escapeStr (jsTrim s)⟩
  · intro ext mode d f s hd hs hlen out hok
    have hinv := validateVCardData_ok_inv ext mode d out hok f
    rw [hd, sanitizeField_long_err s (fieldName f) hs hlen] at hinv
    exact absurd hinv (by simp)
  · intro ext d out h f v hv
    unfold validateVCardDataV1 at h
    split_ifs at h with g1 g2 g3 g4
    injection h with h'
    subst h'
    cases f <;>
      simp only [JsonData.getF] at hv <;>
      · obtain ⟨s, hval⟩ := sanitizeFieldV1_some _ _ hv
        exact hval ▸ noUnescaped_escapeStr (jsTrim s)

/-- Witness for C2: the accepted `Jane/Doe` payload has a first name within
the cap and free of unescaped characters. -/
theorem claim_C2_witness : "Jane".length ≤ 100 ∧ noUnescaped "Jane" = true :=
  claim_C2.1 extTrue .development janeDoeData
    { url := none, firstName := some "Jane", lastName := some "Doe" }
    (by decide) .firstName "Jane" (by decide)

theorem find?_append_right {α} (p : α → Bool) (l₁ l₂ : List α)
    (h : ∀ x ∈ l₁, p x = false) : (l₁ ++ l₂).find? p = l₂.find? p := by
  induction l₁ with
  | nil => rfl
  | cons x xs ih =>
    have hx : p x = false := h x (by simp)
    simp only [List.cons_append, List.find?, hx]
    exact ih (fun y hy => h y (by simp [hy]))

theorem any_false_mem {α} (p : α → Bool) (l : List α) (h : l.any p = false) :
    ∀ x ∈ l, p x = false := by
  intro x hx
  by_contra hc
  simp only [Bool.not_eq_false] at hc
  exact absurd (List.any_eq_true.mpr ⟨x, hx, hc⟩) (by simp [h])

set_option maxRecDepth 10000 in
/-- C3 counterexample: in `server.js` (cited by the claim), creating a link
for `https://example.com` and resolving its shortId yields a 200 HTML landing
page, not a 302 redirect. -/
theorem claim_C3_cex :
    serverResolve (memCreate [] 1 "abc12345" 0 "link" linkExampleData).1 "abc12345" =
      some (.htmlPage 200 (serverLandingHtml "https://example.com")) ∧
    isRedirect302
      (serverResolve (memCreate [] 1 "abc12345" 0 "link" linkExampleData).1 "abc12345") =
      false := by
  constructor
  · decide
  · decide

/-- C3 (amended): after a successful create of a Link for
`https://example.com`, resolving the fresh shortId yields, in the Supabase
variant, a 302 redirect to exactly `"https://example.com"` (the stored URL,
not rewritten); in the `server.js` variant it yields a 200 HTML landing page
that embeds exactly `"https://example.com"` as its redirect target. -/
theorem claim_C3 :
    (∀ (ext : ExtChecks) (mode : Mode) (store : List SupaRecord) (nid : Nat)
       (g : String) (now : Nat),
       (supaCreate ext mode store nid g now "link" linkExampleData).response =
         .jsonMsg 200 "created" →
       supaResolve (supaCreate ext mode store nid g now "link" linkExampleData).newStore g =
         some (.redirect 302 "https://example.com")) ∧
    (∀ (store : List MemRecord) (nid : Nat) (g : String) (now : Nat),
       (∀ c ∈ store, c.shortId ≠ g) →
       serverResolve (memCreate store nid g now "link" linkExampleData).1 g =
         some (.htmlPage 200 (serverLandingHtml "https://example.com"))) := by
  constructor
  · intro ext mode store nid g now hresp
    have hurl : validateUrl mode (some "https://example.com") = .ok "https://example.com" := by
      cases mode <;> decide
    have hval : supaValidateCreate ext mode "link" linkExampleData =
        .ok linkExampleData := by
      unfold supaValidateCreate
      simp [linkExampleData, hurl]
    have hkey : supaCreate ext mode store nid g now "link" linkExampleData =
        (if store.any (fun r => r.short_id = g) then
           ⟨store, .jsonMsg 500 "Failed to create QR code", 1⟩
         else
           ⟨store ++ [⟨nid, g, "link", linkExampleData, now, now⟩],
            .jsonMsg 200 "created", 1⟩) := by
      unfold supaCreate
      rw [hval]
      simp
    rw [hkey] at hresp ⊢
    by_cases hany : store.any (fun r => r.short_id = g) = true
    · rw [if_pos hany] at hresp
      simp at hresp
    · have hany' : store.any (fun r => r.short_id = g) = false := by
        simpa using hany
      rw [if_neg hany] at hresp ⊢
      unfold supaResolve
      simp only []
      rw [find?_append_right _ store _ (any_false_mem _ _ hany')]
      simp [List.find?, linkExampleData]
  · intro store nid g now hfresh
    unfold memCreate serverResolve
    simp only []
    rw [find?_append_right _ store _ (fun x hx => by simpa using hfresh x hx)]
    simp [List.find?, linkExampleData]

set_option maxRecDepth 10000 in
/-- Witness for C3: a concrete successful create in each variant, resolved. -/
theorem claim_C3_witness :
    supaResolve (supaCreate extTrue .development [] 1 "abc12345" 0 "link"
        linkExampleData).newStore "abc12345" =
      some (.redirect 302 "https://example.com") ∧
    serverResolve (memCreate [] 1 "zzzzzzzz" 0 "link" linkExampleData).1 "zzzzzzzz" =
      some (.htmlPage 200 (serverLandingHtml "https://example.com")) :=
  ⟨claim_C3.1 extTrue .development [] 1 "abc12345" 0 (by decide),
   claim_C3.2 [] 1 "zzzzzzzz" 0 (by intro c hc; exact absurd hc (List.not_mem_nil c))⟩

/-- C4 counterexample: the Supabase variant's inline vCard template (cited by
the claim) renders a contact without optional fields with LF-only line breaks
(no CR anywhere) and with blank lines where the optional fields would be. -/
theorem claim_C4_cex :
    containsSub ['\n', '\n'] (supaVCardText janeDoeData).data = true ∧
    (supaVCardText janeDoeData).data.contains (Char.ofNat 13) = false := by
  constructor
  · decide
  · decide

/-- C4 (amended): `generateVCard` (used by `server.js`, the SQLite, in-memory
and Netlify variants) renders exactly the specification's fixed line order
joined with CRLF, and no emitted line is blank — absent optional fields are
omitted entirely. The Supabase variant's inline template instead uses LF and
emits a blank line for each absent optional field. -/
theorem claim_C4 :
    ∀ d : JsonData,
      generateVCard d = String.intercalate "\r\n" (vcardSpecLines d) ∧
      ∀ s ∈ vcardSpecLines d, s ≠ "" := by
  intro d
  constructor
  · unfold generateVCard generateVCardLines vcardSpecLines
    split_ifs <;> simp
  · intro s hs
    have hAux : ∀ p e : String, 0 < p.length → 0 < (p ++ e).length := by
      intro p e hp
      rw [String.length_append]
      omega
    have hlen : 0 < s.length := by
      unfold vcardSpecLines at hs
      split_ifs at hs <;>
        simp only [List.mem_append, List.mem_cons, List.mem_singleton,
          List.not_mem_nil, or_false] at hs <;>
        casesm* _ ∨ _ <;> subst_vars <;>
        first
          | decide
          | (apply hAux; all_goals decide)
          | (apply hAux; apply hAux; all_goals decide)
          | (apply hAux; apply hAux; apply hAux; all_goals decide)
          | (apply hAux; apply hAux; apply hAux; apply hAux; all_goals decide)
    intro hempty
    rw [hempty] at hlen
    exact absurd hlen (by decide)

/-- Witness for C4: the Jane/Doe card renders in spec order with CRLF and its
first line is not blank. -/
theorem claim_C4_witness :
    generateVCard janeDoeData =
      String.intercalate "\r\n" (vcardSpecLines janeDoeData) ∧
    "BEGIN:VCARD" ≠ "" :=
  ⟨(claim_C4 janeDoeData).1, (claim_C4 janeDoeData).2 "BEGIN:VCARD" (by decide)⟩

/-- C5: the claim (and the spec) say `DELETE /api/qr/clear-all` empties the
store; but every variant registers `DELETE /api/qr/:id` first, `:id` matches
the segment `clear-all`, so the clear-all handler is unreachable: the request
runs the delete-by-id handler with id `"clear-all"`, no row is removed, and a
subsequent list is unchanged (here: still one record). The clear-all handler
itself, were it reachable, would indeed empty the table. -/
theorem claim_C5 :
    dispatchDelete ["api", "qr", "clear-all"] = .byId "clear-all" ∧
    (supaDeleteById [recA] "clear-all").1 = [recA] ∧
    supaList [recA] ≠ [] ∧
    (supaClearAll [recA]).1 = [] := by
  refine ⟨by decide, by decide, by decide, by decide⟩

/-- C6 counterexample: with a store already holding shortId `"AAAAAAAA"` and a
generator that would next produce the fresh `"BBBBBBBB"`, create draws exactly
one identifier, performs no retry, and fails with the generic 500 — not a
Conflict after bounded retries. -/
theorem claim_C6_cex :
    supaCreate extTrue .development [recA] 2 "AAAAAAAA" 7 "link" linkExampleData =
      ⟨[recA], .jsonMsg 500 "Failed to create QR code", 1⟩ ∧
    ¬ 2 ≤ (supaCreate extTrue .development [recA] 2 "AAAAAAAA" 7 "link"
            linkExampleData).draws := by
  constructor
  · decide
  · decide

/-- C6 (amended): create never draws more than one identifier — there is no
retry path at all; when the drawn identifier collides with a stored
`short_id`, the single insert attempt fails and the handler returns the
generic 500 `"Failed to create QR code"` with the store unchanged (no
Conflict marker exists in the code). -/
theorem claim_C6 :
    ∀ (ext : ExtChecks) (mode : Mode) (store : List SupaRecord) (nid : Nat)
      (g : String) (now : Nat) (ty : String) (d : JsonData),
      (supaCreate ext mode store nid g now ty d).draws ≤ 1 ∧
      (∀ stored, supaValidateCreate ext mode ty d = .ok stored →
        (ty = "link" ∨ ty = "vcard") →
        store.any (fun r => r.short_id = g) = true →
        supaCreate ext mode store nid g now ty d =
          ⟨store, .jsonMsg 500 "Failed to create QR code", 1⟩) := by
  intro ext mode store nid g now ty d
  constructor
  · unfold supaCreate
    by_cases h1 : (!(ty = "link" || ty = "vcard")) = true
    · rw [if_pos h1]
      simp
    · rw [if_neg h1]
      cases hval : supaValidateCreate ext mode ty d with
      | error e => simp
      | ok stored =>
        simp only []
        split_ifs <;> simp
  · intro stored hval hty hany
    unfold supaCreate
    rw [hval]
    have hmw : (!(ty = "link" || ty = "vcard")) = false := by
      rcases hty with rfl | rfl <;> decide
    rw [hmw]
    simp [hany]

/-- Witness for C6: the collision outcome evaluated at the concrete inputs. -/
theorem claim_C6_witness :
    supaCreate extTrue .development [recA] 2 "AAAAAAAA" 7 "link" linkExampleData =
      ⟨[recA], .jsonMsg 500 "Failed to create QR code", 1⟩ :=
  (claim_C6 extTrue .development [recA] 2 "AAAAAAAA" 7 "link" linkExampleData).2
    linkExampleData (by decide) (Or.inl rfl) (by decide)

/-- C7: a successful `server.js` update leaves `id`, `shortId` and
`createdAt` untouched, sets `type`, `data` and `updatedAt` to the request
values, and changes no other element of the array; the Supabase variant's
update likewise writes only `type`, `data` and `updated_at` on the matching
row. -/
theorem claim_C7 :
    (∀ (store : List MemRecord) (id : Nat) (ty : String) (d : JsonData)
       (now : Nat) (store' : List MemRecord),
       memUpdate store id ty d now = (store', true) →
       ∃ i old nrec, store.get? i = some old ∧ old.id = id ∧
         store'.get? i = some nrec ∧
         nrec.shortId = old.shortId ∧ nrec.id = old.id ∧
         nrec.createdAt = old.createdAt ∧
         nrec.type = ty ∧ nrec.data = d ∧ nrec.updatedAt = now ∧
         (∀ j, j ≠ i → store'.get? j = store.get? j)) ∧
    (∀ (ext : ExtChecks) (mode : Mode) (store : List SupaRecord) (id now : Nat)
       (ty : String) (d : JsonData),
       (supaUpdate ext mode store id now ty d).2 = .jsonMsg 200 "updated" →
       ∃ stored, supaValidateUpdate ext mode ty d = .ok stored ∧
         (supaUpdate ext mode store id now ty d).1 =
           store.map (fun r =>
             if r.id = id then
               { r with type := ty, data := stored, updated_at := now }
             else r)) := by
  constructor
  · intro store
    induction store with
    | nil =>
      intro id ty d now store' h
      simp [memUpdate] at h
    | cons c cs ih =>
      intro id ty d now store' h
      simp only [memUpdate] at h
      by_cases hc : c.id = id
      · rw [if_pos hc] at h
        have h1 : ({ c with type := ty, data := d, updatedAt := now } :: cs) = store' :=
          congrArg Prod.fst h
        refine ⟨0, c, { c with type := ty, data := d, updatedAt := now },
          rfl, hc, ?_, rfl, rfl, rfl, rfl, rfl, rfl, ?_⟩
        · rw [← h1]
          rfl
        · intro j hj
          rw [← h1]
          cases j with
          | zero => exact absurd rfl hj
          | succ j' => rfl
      · rw [if_neg hc] at h
        have h1 : c :: (memUpdate cs id ty d now).1 = store' :=
          congrArg Prod.fst h
        have h2 : (memUpdate cs id ty d now).2 = true :=
          congrArg Prod.snd h
        obtain ⟨i, old, nrec, g1, g2, g3, g4, g5, g6, g7, g8, g9, g10⟩ :=
          ih id ty d now (memUpdate cs id ty d now).1 (Prod.ext rfl h2)
        refine ⟨i + 1, old, nrec, by simpa using g1, g2, ?_, g4, g5, g6, g7, g8, g9, ?_⟩
        · rw [← h1]
          simpa using g3
        · intro j hj
          rw [← h1]
          cases j with
          | zero => rfl
          | succ j' =>
            have : j' ≠ i := fun he => hj (by rw [he])
            simpa using g10 j' this
  · intro ext mode store id now ty d hresp
    unfold supaUpdate at hresp ⊢
    cases hval : supaValidateUpdate ext mode ty d with
    | error e =>
      rw [hval] at hresp
      split_ifs at hresp <;> simp at hresp
    | ok stored =>
      rw [hval] at hresp
      split_ifs at hresp ⊢ with h1 h2
      · simp at hresp
      · exact ⟨stored, rfl, rfl⟩
      · simp at hresp

/-- Witness for C7: a concrete successful update of the only record. -/
theorem claim_C7_witness :
    ∃ i old nrec,
      [(⟨1, "abc12345", "link", linkExampleData, 0, 0⟩ : MemRecord)].get? i = some old ∧
      old.id = 1 ∧
      [(⟨1, "abc12345", "vcard", janeDoeData, 0, 5⟩ : MemRecord)].get? i = some nrec ∧
      nrec.shortId = old.shortId ∧ nrec.id = old.id ∧
      nrec.createdAt = old.createdAt ∧
      nrec.type = "vcard" ∧ nrec.data = janeDoeData ∧ nrec.updatedAt = 5 ∧
      (∀ j, j ≠ i →
        [(⟨1, "abc12345", "vcard", janeDoeData, 0, 5⟩ : MemRecord)].get? j =
        [(⟨1, "abc12345", "link", linkExampleData, 0, 0⟩ : MemRecord)].get? j) :=
  claim_C7.1 [⟨1, "abc12345", "link", linkExampleData, 0, 0⟩] 1 "vcard" janeDoeData 5
    [⟨1, "abc12345", "vcard", janeDoeData, 0, 5⟩] (by decide)

/-- C8: the validation block of the create handler is literally the same
function as the update handler's; an accepted Link persists a `data` object
whose `url` equals the validator's trimmed output (the trimmed accepted URL is
the input itself, since `isURL` rejects any whitespace); an accepted
ContactCard persists exactly the sanitized output of `validateVCardData` —
never the raw input. -/
theorem claim_C8 :
    supaValidateCreate = supaValidateUpdate ∧
    (∀ (ext : ExtChecks) (mode : Mode) (d out : JsonData),
       supaValidateCreate ext mode "link" d = .ok out →
       out = d ∧ ∃ u, d.url = some u ∧ validateUrl mode (some u) = .ok u) ∧
    (∀ (ext : ExtChecks) (mode : Mode) (d out : JsonData),
       supaValidateCreate ext mode "vcard" d = .ok out →
       validateVCardData ext mode d = .ok out) := by
  refine ⟨rfl, ?_, ?_⟩
  · intro ext mode d out h
    unfold supaValidateCreate at h
    rw [if_pos rfl] at h
    cases hu : d.url with
    | none => rw [hu] at h; simp at h
    | some u =>
      rw [hu] at h
      simp only [] at h
      by_cases h1 : u = ""
      · rw [if_pos h1] at h
        simp at h
      rw [if_neg h1] at h
      cases hv : validateUrl mode (some u) with
      | error e => rw [hv] at h; simp at h
      | ok v =>
        rw [hv] at h
        simp only [Except.ok.injEq] at h
        obtain ⟨u', hu', hne, hisurl, hval⟩ := validateUrl_ok_inv mode (some u) v hv
        obtain rfl : u = u' := by injection hu'
        have htrim : jsTrim u = u := isURL_jsTrim u hisurl
        refine ⟨h.symm, u, rfl, ?_⟩
        rw [hv, hval, htrim]
  · intro ext mode d out h
    unfold supaValidateCreate at h
    simpa using h

/-- Witness for C8: the link payload for `https://example.com` is persisted
as validated. -/
theorem claim_C8_witness :
    linkExampleData = linkExampleData ∧
    ∃ u, linkExampleData.url = some u ∧
      validateUrl .development (some u) = .ok u :=
  claim_C8.2.1 extTrue .development linkExampleData linkExampleData (by decide)

/-- C9 counterexample: in `server.js` (cited by the claim), shortId
`"AAAAAAAA"` is issued to record 1, record 1 is deleted, and a later create
assigns the very same shortId to the new record 2 — the identifier is
recycled. -/
theorem claim_C9_cex :
    (memCreate [] 1 "AAAAAAAA" 0 "link" linkExampleData).1 =
      [⟨1, "AAAAAAAA", "link", linkExampleData, 0, 0⟩] ∧
    (memDelete [⟨1, "AAAAAAAA", "link", linkExampleData, 0, 0⟩] 1).1 = [] ∧
    (memCreate [] 2 "AAAAAAAA" 5 "link" linkExampleData).1 =
      [⟨2, "AAAAAAAA", "link", linkExampleData, 5, 5⟩] := by
  refine ⟨by decide, by decide, by decide⟩

/-- C9 (amended): nothing prevents identifier recycling. The in-memory
create stores the generator's output unconditionally, with no check against
current or past shortIds; the Supabase create checks uniqueness only against
the rows currently stored, so a create succeeds with any identifier absent
from the current table regardless of history. Non-reuse holds only
probabilistically, through the generator's entropy. -/
theorem claim_C9 :
    (∀ (store : List MemRecord) (nid : Nat) (g : String) (now : Nat)
       (ty : String) (d : JsonData),
       (memCreate store nid g now ty d).1 =
         store ++ [⟨nid, g, ty, d, now, now⟩]) ∧
    (∀ (ext : ExtChecks) (mode : Mode) (store : List SupaRecord) (nid : Nat)
       (g : String) (now : Nat),
       store.any (fun r => r.short_id = g) = false →
       (supaCreate ext mode store nid g now "link" linkExampleData).response =
         .jsonMsg 200 "created") := by
  constructor
  · intro store nid g now ty d
    rfl
  · intro ext mode store nid g now hany
    have hurl : validateUrl mode (some "https://example.com") = .ok "https://example.com" := by
      cases mode <;> decide
    have hval : supaValidateCreate ext mode "link" linkExampleData =
        .ok linkExampleData := by
      unfold supaValidateCreate
      simp [linkExampleData, hurl]
    unfold supaCreate
    rw [hval]
    simp [hany]

/-- Witness for C9: a create into a store that currently lacks (but
historically used) the identifier succeeds. -/
theorem claim_C9_witness :
    (supaCreate extTrue .development [] 9 "AAAAAAAA" 5 "link"
        linkExampleData).response = .jsonMsg 200 "created" :=
  claim_C9.2 extTrue .development [] 9 "AAAAAAAA" 5 (by decide)

/-- C10: a stored record whose type is neither `link` nor `vcard` makes the
Express resolvers fall through with no response at all, while the Netlify
handler answers 404 `"Invalid QR code type"`. -/
theorem claim_C10 :
    ∀ (sstore : List SupaRecord) (mstore : List MemRecord) (s : String)
      (r : SupaRecord) (m : MemRecord),
      sstore.find? (fun x => x.short_id = s) = some r →
      r.type ≠ "link" → r.type ≠ "vcard" →
      mstore.find? (fun c => c.shortId = s) = some m →
      m.type ≠ "link" → m.type ≠ "vcard" →
      supaResolve sstore s = none ∧
      serverResolve mstore s = none ∧
      netlifyHandler mstore "GET" ["q", s] = ⟨404, "Invalid QR code type", none⟩ := by
  intro sstore mstore s r m hs hr1 hr2 hm hm1 hm2
  refine ⟨?_, ?_, ?_⟩
  · unfold supaResolve
    rw [hs]
    simp [hr1, hr2]
  · unfold serverResolve
    rw [hm]
    simp [hm1, hm2]
  · unfold netlifyHandler
    simp only []
    rw [if_neg (by simp)]
    have : ((["q", s].drop 1).headD "") = s := rfl
    rw [this, hm]
    simp [hm1, hm2]

/-- Witness for C10: a concrete record of type `"text"`. -/
theorem claim_C10_witness :
    supaResolve [⟨1, "abc12345", "text", janeDoeData, 0, 0⟩] "abc12345" = none ∧
    serverResolve [⟨1, "abc12345", "text", janeDoeData, 0, 0⟩] "abc12345" = none ∧
    netlifyHandler [⟨1, "abc12345", "text", janeDoeData, 0, 0⟩] "GET" ["q", "abc12345"] =
      ⟨404, "Invalid QR code type", none⟩ :=
  claim_C10 [⟨1, "abc12345", "text", janeDoeData, 0, 0⟩]
    [⟨1, "abc12345", "text", janeDoeData, 0, 0⟩] "abc12345"
    ⟨1, "abc12345", "text", janeDoeData, 0, 0⟩
    ⟨1, "abc12345", "text", janeDoeData, 0, 0⟩
    (by decide) (by decide) (by decide) (by decide) (by decide) (by decide)

/-! # Sanity checks (concrete evaluations of the embedded functions) -/

example : validateUrl .development (some "https://example.com") = .ok "https://example.com" := by decide
example : validateUrl .production (some "javascript:alert(1)") = .error "Dangerous URL scheme not allowed" := by decide
example : validateUrl .development (some "ftp://example.com") = .error "Dangerous URL scheme not allowed" := by decide
example : validateUrl .development (some "http://localhost:3000/x") = .error "Invalid URL format - only HTTP and HTTPS URLs are allowed" := by decide
example : validateUrl .development (some "http://127.0.0.1:3000/x") = .ok "http://127.0.0.1:3000/x" := by decide
example : validateUrl .production (some "http://127.0.0.1:3000/x") = .error "Local/private URLs are not allowed in production" := by decide
example : validateUrl .development (some "notaurl") = .error "Invalid URL format - only HTTP and HTTPS URLs are allowed" := by decide
example : validateUrl .development (some "HTTP://EXAMPLE.COM/Path") = .ok "HTTP://EXAMPLE.COM/Path" := by decide
example : validateUrl .development (some "wss://example.com") = .error "Dangerous URL scheme not allowed" := by decide
example : validateUrlV1 (some "wss://example.com") = .error "Invalid URL format - only HTTP and HTTPS URLs are allowed" := by decide
example : validateUrl .development (some "http://192.168.1.1/a") = .ok "http://192.168.1.1/a" := by decide
example : validateUrl .development (some " https://example.com") = .error "Invalid URL format - only HTTP and HTTPS URLs are allowed" := by decide
example : validateUrl .development (some "http://256.1.1.1") = .error "Invalid URL format - only HTTP and HTTPS URLs are allowed" := by decide
example : validateUrl .development (some "http://[2001:db8::1]:8080/x") = .ok "http://[2001:db8::1]:8080/x" := by decide
example : validateUrl .development (some "http://example.com:0") = .error "Invalid URL format - only HTTP and HTTPS URLs are allowed" := by decide
example : validateUrl .development (some "http://exa_mple.com") = .error "Invalid URL format - only HTTP and HTTPS URLs are allowed" := by decide

example : escapeStr "a<b>&\"x" = "a&lt;b&gt;&amp;&quot;x" := by decide
example : noUnescaped "a&lt;b&gt;&amp;&quot;x" = true := by decide
example : noUnescaped "a<b" = false := by decide
example : noUnescaped "a&b" = false := by decide

example :
    validateVCardData extTrue .development
      { firstName := some "Jane", lastName := some "Doe", email := some "jane@x.com" } =
      .ok { firstName := some "Jane", lastName := some "Doe", email := some "jane@x.com" } := by
  decide
example :
    validateVCardData extTrue .development
      { firstName := some "<Jane>", lastName := some "Doe" } =
      .ok { firstName := some "&lt;Jane&gt;", lastName := some "Doe" } := by
  decide
example :
    validateVCardData extTrue .development { lastName := some "Doe" } =
      .error "firstName is required" := by decide

example : (memCreate [] 1 "abc12345" 0 "link" linkExampleData).1 =
    [⟨1, "abc12345", "link", linkExampleData, 0, 0⟩] := by decide
example : generateVCard janeDoeData =
    "BEGIN:VCARD\r\nVERSION:3.0\r\nFN:Jane Doe\r\nN:Doe;Jane;;;\r\nEND:VCARD" := by decide
example : supaVCardText janeDoeData =
    "BEGIN:VCARD\nVERSION:3.0\nFN:Jane Doe\nN:Doe;Jane;;;\n\n\n\n\n\nEND:VCARD" := by decide
example : dispatchDelete ["api", "qr", "clear-all"] = .byId "clear-all" := by decide
